import Mathlib

/-!
Verification development for the quickjs Go bindings (`quickjs.go`).

The repository is an FFI layer over an external, reference-counted script
engine.  The engine itself (parser, interpreter, GC) is not part of the
repository, so its primitives (`JS_Eval`, `JS_GetException`, `JS_Throw`,
property access, coercions, the pending-job queue) are modelled from the
specification as a small explicit state machine (`Engine`).  Everything at
the Go level — `Context.EvalFile`, `Context.Exception`, `Value.Error`,
`proxy`, `storeFuncPtr` / `restoreFuncPtr`, `Context.Function`,
`Context.Globals`, `Runtime.ExecutePendingJob`, `Value.BigInt`,
`Value.BigFloat`, the primitive constructors and conversions — is translated
from the source.  Machine integers are modelled as `Int` with explicit
wrapping (`wrap32`, `wrap64`); IEEE doubles are carried as their 64-bit
patterns.  The repository contains two evolutions of the design; the primary
one (the first file) is embedded as-is, and the finalizer-based variant's
handle registry is embedded in the `Finalized` namespace where a claim
refers to it.
-/

/-- Host-language strings (Go `string`, assumed valid UTF-8).  An alias is
used in signatures inside the `Value`/`Context` namespaces, where the bare
name `String` would clash with the source method names kept below. -/
abbrev GoStr := String

/-- Wrap an integer into the signed 64-bit range, modelling Go/C `int64`
arithmetic (two's complement). -/
def wrap64 (x : Int) : Int := (x + 2 ^ 63) % 2 ^ 64 - 2 ^ 63

/-- Wrap an integer into the signed 32-bit range, modelling C `int32_t`
and the engine's ToInt32 coercion. -/
def wrap32 (x : Int) : Int := (x + 2 ^ 31) % 2 ^ 32 - 2 ^ 31

/-- Bytes of a C string: `C.CString` hands the engine a NUL-terminated
copy, so the engine reads the characters up to the first NUL. -/
def cstrChars : List Char → List Char
  | [] => []
  | c :: t => if c = Char.ofNat 0 then [] else c :: cstrChars t

/-- The string actually transported across `C.CString` + a `const char*`
parameter: the prefix before the first NUL character. -/
def goCString (s : GoStr) : GoStr := ⟨cstrChars s.data⟩

/-- A foreign engine value (`JSValue`).  Modelled from the spec: one of
undefined, null, uninitialized, boolean, number (int-tagged or an IEEE-754
double carried as its 64-bit pattern), big-integer, big-float, big-decimal,
string, symbol, heap object (by id), the native trampoline function, a
host-closure-bound function (carrying its registry-token value), or the
special exception marker returned by failing engine calls. -/
inductive JSVal where
  | undefined
  | null
  | uninitialized
  | exception
  | bool (b : Bool)
  | int (v : Int)
  | float64 (bits : Nat)
  | bigint (v : Int)
  | bigfloat (s : String)
  | bigdecimal (s : String)
  | str (s : String)
  | symbol (n : Nat)
  | obj (id : Nat)
  | nativefunc
  | hostfunc (idv : JSVal)
deriving DecidableEq

/-- A heap object of the engine: whether it is an Error-class object, and
its named properties (first binding wins on lookup). -/
structure JSObject where
  isError : Bool
  props : List (String × JSVal)
deriving DecidableEq

/-- What executing one queued microtask does: it either completes or raises
a value.  Modelled from the spec (§4.2). -/
inductive JobSpec where
  | succeeds
  | raises (v : JSVal)
deriving DecidableEq

/-- The foreign engine state visible through the consumed ABI: the pending
exception slot, the object heap (an association list keyed by object id; a
fresh id is drawn from `nextObj`), and the queued microtasks.  Modelled
from the spec (§2, §4.2, §6). -/
structure Engine where
  pending : Option JSVal
  heap : List (Nat × JSObject)
  nextObj : Nat
  jobs : List JobSpec
deriving DecidableEq

/-- The engine state of a freshly created context: no pending exception,
no jobs, and the global object allocated at id 0. -/
def initEngine : Engine :=
  { pending := none, heap := [(0, { isError := false, props := [] })], nextObj := 1, jobs := [] }

/-- Modelled from the spec: `JS_GetGlobalObject` returns (a new handle to)
the context's one global object. -/
def js_GetGlobalObject (_st : Engine) : JSVal := JSVal.obj 0

/-- Modelled from the spec: `JS_Throw` records the thrown value in the
pending-exception slot and returns the exception marker. -/
def js_Throw (st : Engine) (v : JSVal) : JSVal × Engine :=
  (JSVal.exception, { st with pending := some v })

/-- Modelled from the spec: `JS_GetException` reads and clears the
pending-exception slot (returning `JS_NULL` when nothing is pending). -/
def js_GetException (st : Engine) : JSVal × Engine :=
  (st.pending.getD JSVal.null, { st with pending := none })

/-- Modelled from the spec: `JS_NewError` allocates a fresh Error-class
object with no properties. -/
def js_NewError (st : Engine) : JSVal × Engine :=
  (JSVal.obj st.nextObj,
   { st with heap := (st.nextObj, { isError := true, props := [] }) :: st.heap,
             nextObj := st.nextObj + 1 })

/-- Modelled from the spec: `JS_SetPropertyStr` stores a named property on
a heap object (no-op on non-objects and dangling ids). -/
def js_SetPropertyStr (st : Engine) (target : JSVal) (name : String) (v : JSVal) : Engine :=
  match target with
  | .obj id =>
    match st.heap.lookup id with
    | some o => { st with heap := (id, { o with props := (name, v) :: o.props }) :: st.heap }
    | none => st
  | _ => st

/-- Modelled from the spec: `JS_GetPropertyStr` reads a named property of
a heap object, yielding `undefined` when absent. -/
def js_GetPropertyStr (st : Engine) (target : JSVal) (name : String) : JSVal :=
  match target with
  | .obj id =>
    match st.heap.lookup id with
    | some o => (o.props.lookup name).getD JSVal.undefined
    | none => JSVal.undefined
  | _ => JSVal.undefined

/-- Modelled from the spec: value constructors of the engine ABI store the
given payloads.  `JS_NewBool` takes a C `int` and stores its truthiness. -/
def js_NewBool (v : Int) : JSVal := JSVal.bool (v ≠ 0)

/-- Modelled from the spec: `JS_NewInt32` (payload already in `int32_t`). -/
def js_NewInt32 (v : Int) : JSVal := JSVal.int (wrap32 v)

/-- Modelled from the spec: `JS_NewInt64` (payload already in `int64_t`). -/
def js_NewInt64 (v : Int) : JSVal := JSVal.int (wrap64 v)

/-- Modelled from the spec: `JS_NewUint32` (payload already in `uint32_t`). -/
def js_NewUint32 (v : Nat) : JSVal := JSVal.int ((v : Int) % 2 ^ 32)

/-- Modelled from the spec: `JS_NewFloat64`, with the double carried as its
64-bit pattern. -/
def js_NewFloat64 (bits : Nat) : JSVal := JSVal.float64 (bits % 2 ^ 64)

/-- Modelled from the spec: `JS_NewString` consumes a NUL-terminated C
string; the payload is therefore already NUL-free. -/
def js_NewString (s : String) : JSVal := JSVal.str s

/-- IEEE-754 binary64 NaN test on a bit pattern: exponent all ones and a
non-zero mantissa. -/
def isNaNBits (bits : Nat) : Bool :=
  decide ((bits / 2 ^ 52) % 2 ^ 11 = 2 ^ 11 - 1) && decide (bits % 2 ^ 52 ≠ 0)

/-- Modelled from the spec: `JS_ToBool` (JavaScript truthiness; 1 for true,
0 for false, -1 on the exception marker).  Truthiness of big-float and
big-decimal payloads is engine-internal and abstracted as 1; no claim
coerces them. -/
def js_ToBool (_st : Engine) (v : JSVal) : Int :=
  match v with
  | .undefined | .null | .uninitialized => 0
  | .bool b => if b then 1 else 0
  | .int n => if n = 0 then 0 else 1
  | .float64 bits => if bits % 2 ^ 63 = 0 ∨ isNaNBits bits then 0 else 1
  | .bigint n => if n = 0 then 0 else 1
  | .bigfloat _ | .bigdecimal _ => 1
  | .str s => if s = "" then 0 else 1
  | .symbol _ => 1
  | .obj _ => 1
  | .nativefunc | .hostfunc _ => 1
  | .exception => -1

/-- Modelled from the spec: `JS_ToInt64`.  Exact on int-tagged numbers
(64-bit wrap); conversion of doubles and of non-numbers is engine-internal
and abstracted as 0 — the claims apply it only to int-tagged values. -/
def js_ToInt64 (_st : Engine) (v : JSVal) : Int :=
  match v with
  | .int n => wrap64 n
  | .bool b => if b then 1 else 0
  | .bigint n => wrap64 n
  | _ => 0

/-- Modelled from the spec: `JS_ToInt32` (32-bit wrap on int-tagged
numbers; other kinds abstracted as 0, unused by the claims). -/
def js_ToInt32 (_st : Engine) (v : JSVal) : Int :=
  match v with
  | .int n => wrap32 n
  | .bool b => if b then 1 else 0
  | _ => 0

/-- Modelled from the spec: `JS_ToUint32` (reduction mod 2^32 on int-tagged
numbers; other kinds abstracted as 0, unused by the claims). -/
def js_ToUint32 (_st : Engine) (v : JSVal) : Nat :=
  match v with
  | .int n => (n % 2 ^ 32).toNat
  | .bool b => if b then 1 else 0
  | _ => 0

/-- Modelled from the spec: `JS_ToFloat64`, returning the 64-bit pattern.
Conversion of non-double numbers to IEEE bits is engine-internal and
abstracted as 0; the claims apply it only to double-tagged values. -/
def js_ToFloat64 (_st : Engine) (v : JSVal) : Nat :=
  match v with
  | .float64 bits => bits
  | _ => 0

/-- Modelled from the spec: `JS_ToCString` (the engine's ToString).  Error
objects render as `Error` / `Error: <message>`; numeric formatting of
doubles is engine-internal and abstracted (no claim stringifies one);
big-float and big-decimal payloads render as their stored text. -/
def js_ToCString (st : Engine) (v : JSVal) : String :=
  match v with
  | .str s => s
  | .bool b => if b then "true" else "false"
  | .int n => toString n
  | .bigint n => toString n
  | .bigfloat s | .bigdecimal s => s
  | .null => "null"
  | .undefined => "undefined"
  | .uninitialized => "[uninitialized]"
  | .float64 _ => "[number]"
  | .symbol _ => "Symbol()"
  | .obj id =>
    match st.heap.lookup id with
    | some o =>
      if o.isError then
        match o.props.lookup "message" with
        | some (.str m) => if m = "" then "Error" else "Error: " ++ m
        | _ => "Error"
      else "[object Object]"
    | none => "[object Object]"
  | .nativefunc | .hostfunc _ => "function"
  | .exception => "[exception]"

/-- Modelled from the spec: `JS_ExecutePendingJob` pops one queued job and
returns 1 when it ran to completion, 0 when the queue was empty, and -1
(leaving the raised value pending) when it threw. -/
def js_ExecutePendingJob (st : Engine) : Int × Engine :=
  match st.jobs with
  | [] => (0, st)
  | .succeeds :: rest => (1, { st with jobs := rest })
  | .raises v :: rest => (-1, { st with jobs := rest, pending := some v })

/-- The host-level `Error` struct of the bindings: `Cause` is the error's
string form, `Stack` the `stack` property's string form (Go zero value `""`
when the property is undefined). -/
structure Error where
  Cause : String
  Stack : String
deriving DecidableEq

/-- Alias for the host `Error` struct, usable inside the `Context` and
`Value` namespaces where the bare name `Error` would resolve to the source
method `Context.Error` / `Value.Error` kept below. -/
abbrev GoErr := Error

/-- The host `Context` struct of the primary variant (the `ref` pointer is
implicit: the single modelled context's engine state is threaded
explicitly): its lazily cached global-object handle and lazily created
trampoline C-function handle. -/
structure Context where
  globals : Option JSVal := none
  proxy : Option JSVal := none
deriving DecidableEq

/-- The Go `Function` callback type `func(ctx *Context, this Value, args
[]Value) Value`.  The context pointer is implicit; the callback receives
`this` and the argument list and may update the engine state (e.g. by
throwing). -/
abbrev Function := JSVal → List JSVal → Engine → JSVal × Engine

/-- The registry entry `funcEntry` stored per exposed closure (the `ctx`
field of the source is implicit in the single-context model). -/
structure funcEntry where
  fn : Function

/-- The process-wide handle registry of the primary variant: the `int64`
counter `funcPtrLen` (kept wrapped to the signed 64-bit range, as Go's
`atomic.AddInt64` does) and the map `funcPtrStore`, as an association list
whose first binding wins. -/
structure FuncStore where
  funcPtrLen : Int
  funcPtrStore : List (Int × funcEntry)

/-- The registry at process start: counter 0, no entries. -/
def emptyStore : FuncStore := { funcPtrLen := 0, funcPtrStore := [] }

/-- `storeFuncPtr` of the primary variant: `id := atomic.AddInt64(&funcPtrLen,
1) - 1` (both steps in wrapping `int64` arithmetic), then the entry is
stored under `id`.  The mutex serialises concurrent calls; the model is the
linearised sequence. -/
def storeFuncPtr (v : funcEntry) (s : FuncStore) : Int × FuncStore :=
  let newLen := wrap64 (s.funcPtrLen + 1)
  let id := wrap64 (newLen - 1)
  (id, { funcPtrLen := newLen, funcPtrStore := (id, v) :: s.funcPtrStore })

/-- `restoreFuncPtr` of the primary variant: map lookup under the lock.  A
miss makes the Go map yield the zero `funcEntry` (a nil closure, fatal when
invoked); the model surfaces the miss as `none`. -/
def restoreFuncPtr (ptr : Int) (s : FuncStore) : Option funcEntry :=
  s.funcPtrStore.lookup ptr

/-- The `//export proxy` trampoline of the primary variant: coerce the
first raw argument to an `int64` token, resolve the closure, hand the
remaining arguments (`args[i] = refs[1+i]`) and `this` to it, and return
its result directly.  The `none` branch stands for the fatal nil-closure
dereference a resolver miss would cause in Go; it is unreachable for
tokens the registry issued. -/
def proxy (s : FuncStore) (st : Engine) (thisVal : JSVal) (argv : List JSVal) : JSVal × Engine :=
  let id := js_ToInt64 st (argv.headD JSVal.undefined)
  match restoreFuncPtr id s with
  | some entry =>
    let args := argv.drop 1
    entry.fn thisVal args st
  | none => (JSVal.undefined, st)

/-- Modelled from the spec: the JS shim `(proxy, id) => function() { return
proxy.call(this, id, ...arguments); }` evaluated by `Context.Function`
yields a function that re-invokes the trampoline with the registry token
prepended to the caller's arguments. -/
def invokeHostFunc (s : FuncStore) (idv : JSVal) (thisVal : JSVal) (args : List JSVal)
    (st : Engine) : JSVal × Engine :=
  proxy s st thisVal (idv :: args)

/-- Modelled from the spec: calling a function value from script.  A value
produced by `Context.Function` re-enters the trampoline through the shim;
calling a non-function throws. -/
def callFunctionValue (s : FuncStore) (f : JSVal) (thisVal : JSVal) (args : List JSVal)
    (st : Engine) : JSVal × Engine :=
  match f with
  | .hostfunc idv => invokeHostFunc s idv thisVal args st
  | _ => (JSVal.exception, { st with pending := some (JSVal.str "TypeError: not a function") })

/-- Modelled from the spec: what a top-level script does when evaluated —
it completes with a value, throws a value, or calls a host-exposed
function value with some `this` and arguments (the case the callback
claims need). -/
inductive Outcome where
  | ok (v : JSVal)
  | throwV (v : JSVal)
  | callHost (f : JSVal) (thisV : JSVal) (args : List JSVal)

/-- Modelled from the spec: `JS_Eval` returns the script's value on
completion; on a throw it records the thrown value in the pending slot and
returns the exception marker; a call of a host-exposed function yields the
closure's result (already the exception marker, with the thrown value
pending, when the closure threw). -/
def js_Eval (s : FuncStore) (st : Engine) (o : Outcome) : JSVal × Engine :=
  match o with
  | .ok v => (v, st)
  | .throwV v => (JSVal.exception, { st with pending := some v })
  | .callHost f thisV args => callFunctionValue s f thisV args st

/-- `Context.Null` / the other trivial constructors. -/
def Context.Null (_c : Context) : JSVal := JSVal.null

/-- `Context.Undefined`. -/
def Context.Undefined (_c : Context) : JSVal := JSVal.undefined

/-- `Context.Bool`: Go maps the `bool` to a C `int` 0/1 and calls
`JS_NewBool`. -/
def Context.Bool (b : Bool) : JSVal :=
  let bv : Int := if b then 1 else 0
  js_NewBool bv

/-- `Context.Int32`. -/
def Context.Int32 (v : Int) : JSVal := js_NewInt32 v

/-- `Context.Int64`. -/
def Context.Int64 (v : Int) : JSVal := js_NewInt64 v

/-- `Context.Uint32`. -/
def Context.Uint32 (v : Nat) : JSVal := js_NewUint32 v

/-- `Context.Float64` (the double given as its 64-bit pattern). -/
def Context.Float64 (bits : Nat) : JSVal := js_NewFloat64 bits

/-- `Context.String`: the Go string crosses `C.CString` (NUL-terminated)
into `JS_NewString`, so only the bytes before the first NUL arrive. -/
def Context.String (v : GoStr) : JSVal := js_NewString (goCString v)

/-- Alias for `Bool`, usable inside the `Value` namespace where the bare
name would clash with the source method `Value.Bool`. -/
abbrev GoBool := Bool

/-- `Value.Bool` (`JS_ToBool(...) == 1`). -/
def Value.Bool (st : Engine) (v : JSVal) : GoBool := js_ToBool st v == 1

/-- `Value.String` (`JS_ToCString`). -/
def Value.String (st : Engine) (v : JSVal) : GoStr := js_ToCString st v

/-- `Value.Int64` (`JS_ToInt64` into a zero-initialised `int64_t`). -/
def Value.Int64 (st : Engine) (v : JSVal) : Int := js_ToInt64 st v

/-- `Value.Int32` (`JS_ToInt32`). -/
def Value.Int32 (st : Engine) (v : JSVal) : Int := js_ToInt32 st v

/-- `Value.Uint32` (`JS_ToUint32`). -/
def Value.Uint32 (st : Engine) (v : JSVal) : Nat := js_ToUint32 st v

/-- `Value.Float64` (`JS_ToFloat64`), as the 64-bit pattern. -/
def Value.Float64 (st : Engine) (v : JSVal) : Nat := js_ToFloat64 st v

/-- `Value.IsException` (`JS_IsException`). -/
def Value.IsException (v : JSVal) : GoBool :=
  match v with
  | .exception => true
  | _ => false

/-- `Value.IsUndefined` (`JS_IsUndefined`). -/
def Value.IsUndefined (v : JSVal) : GoBool :=
  match v with
  | .undefined => true
  | _ => false

/-- `Value.IsNull` (`JS_IsNull`). -/
def Value.IsNull (v : JSVal) : GoBool :=
  match v with
  | .null => true
  | _ => false

/-- `Value.IsString` (`JS_IsString`). -/
def Value.IsString (v : JSVal) : GoBool :=
  match v with
  | .str _ => true
  | _ => false

/-- `Value.IsNumber` (`JS_IsNumber`: int-tagged or double-tagged). -/
def Value.IsNumber (v : JSVal) : GoBool :=
  match v with
  | .int _ | .float64 _ => true
  | _ => false

/-- `Value.IsBigInt` (`JS_IsBigInt`; the context argument of the C call is
immaterial to the tag test). -/
def Value.IsBigInt (v : JSVal) : GoBool :=
  match v with
  | .bigint _ => true
  | _ => false

/-- `Value.IsBigFloat` (`JS_IsBigFloat`). -/
def Value.IsBigFloat (v : JSVal) : GoBool :=
  match v with
  | .bigfloat _ => true
  | _ => false

/-- `Value.IsBigDecimal` (`JS_IsBigDecimal`). -/
def Value.IsBigDecimal (v : JSVal) : GoBool :=
  match v with
  | .bigdecimal _ => true
  | _ => false

/-- `Value.IsError` (`JS_IsError`: the value is an Error-class object). -/
def Value.IsError (st : Engine) (v : JSVal) : GoBool :=
  match v with
  | .obj id =>
    match st.heap.lookup id with
    | some o => o.isError
    | none => false
  | _ => false

/-- `Value.Get`: the property name crosses `C.CString` into
`JS_GetPropertyStr`. -/
def Value.Get (st : Engine) (v : JSVal) (name : GoStr) : JSVal :=
  js_GetPropertyStr st v (goCString name)

/-- `Value.Set`: the property name crosses `C.CString` into
`JS_SetPropertyStr`. -/
def Value.Set (st : Engine) (v : JSVal) (name : GoStr) (val : JSVal) : Engine :=
  js_SetPropertyStr st v (goCString name) val

/-- `Value.Error`: `nil` unless the value is an Error-class object;
otherwise an `Error` with `Cause` the value's string form and `Stack` the
`stack` property's string form when that property is defined (Go zero
value `""` otherwise). -/
def Value.Error (st : Engine) (v : JSVal) : Option GoErr :=
  if ! Value.IsError st v then none
  else
    let cause := Value.String st v
    let stack := Value.Get st v "stack"
    if Value.IsUndefined stack then some { Cause := cause, Stack := "" }
    else some { Cause := cause, Stack := Value.String st stack }

/-- `Context.Error`: allocate an engine error object and set its `message`
property to the host error's message string. -/
def Context.Error (st : Engine) (msg : GoStr) : JSVal × Engine :=
  let r := js_NewError st
  let st2 := Value.Set r.2 r.1 "message" (Context.String msg)
  (r.1, st2)

/-- `Context.Throw` (`JS_Throw`). -/
def Context.Throw (st : Engine) (v : JSVal) : JSVal × Engine := js_Throw st v

/-- `Context.ThrowError`: `ctx.Throw(ctx.Error(err))`. -/
def Context.ThrowError (st : Engine) (msg : GoStr) : JSVal × Engine :=
  let r := Context.Error st msg
  Context.Throw r.2 r.1

/-- `Context.Exception`: read the pending exception off the context
(`JS_GetException`, which clears it) and convert it with `Value.Error`. -/
def Context.Exception (st : Engine) : Option GoErr × Engine :=
  let r := js_GetException st
  (Value.Error r.2 r.1, r.2)

/-- `Context.EvalFile` (and `Context.Eval`, which is `EvalFile` with the
fixed filename label `"code"`): run the script; when the result is the
exception marker, return it together with `ctx.Exception()` — which may be
`nil` — else return the value and a `nil` error. -/
def Context.EvalFile (s : FuncStore) (st : Engine) (o : Outcome) :
    (JSVal × Option GoErr) × Engine :=
  let r := js_Eval s st o
  if Value.IsException r.1 then
    let e := Context.Exception r.2
    ((r.1, e.1), e.2)
  else
    ((r.1, none), r.2)

/-- `Context.Globals`: the global-object handle is fetched once and cached
on the context; later calls return the cached handle. -/
def Context.Globals (c : Context) (st : Engine) : JSVal × Context :=
  match c.globals with
  | none =>
    let g := js_GetGlobalObject st
    (g, { c with globals := some g })
  | some g => (g, c)

/-- `Context.Function` of the primary variant: register the closure
(fresh token), build the token Value with `ctx.Int64`, create the
trampoline C-function once per context, and call the JS shim, whose
result — modelled from the spec — is a function value bound to the token
(`JSVal.hostfunc`).  The shim itself is a fixed script whose compilation
succeeds. -/
def Context.Function (c : Context) (s : FuncStore) (_st : Engine) (fn : Function) :
    JSVal × Context × FuncStore :=
  let r := storeFuncPtr { fn := fn } s
  let funcPtrVal := js_NewInt64 r.1
  let c2 := if c.proxy = none then { c with proxy := some JSVal.nativefunc } else c
  (JSVal.hostfunc funcPtrVal, c2, r.2)

/-- `Value.SetFunction`: `v.Set(name, ctx.Function(fn))`. -/
def Value.SetFunction (st : Engine) (v : JSVal) (c : Context) (s : FuncStore) (name : GoStr)
    (fn : Function) : Engine × Context × FuncStore :=
  let r := Context.Function c s st fn
  (Value.Set st v name r.1, r.2.1, r.2.2)

/-- `Value.Free` of the primary variant, projected onto the handle
registry: the source calls only `JS_FreeValue`; no registry code runs (the
`freeFuncPtr` helper is commented out), so the registry is untouched. -/
def Value.Free (s : FuncStore) : FuncStore := s

/-- The Go `error` result of `Runtime.ExecutePendingJob`: Go's `nil` is
`none`; the `io.EOF` sentinel and a constructed `*Error` are the non-nil
cases. -/
inductive EPJError where
  | eof
  | js (e : GoErr)
deriving DecidableEq

/-- `Runtime.ExecutePendingJob` of the primary variant: result > 0 means a
job ran (nil error); 0 means nothing was pending (`io.EOF`); < 0 means the
job threw, and `ctx.Exception()` — possibly `nil` — is returned. -/
def Runtime.ExecutePendingJob (st : Engine) : Option EPJError × Engine :=
  let r := js_ExecutePendingJob st
  if r.1 ≤ 0 then
    if r.1 = 0 then (some EPJError.eof, r.2)
    else
      let e := Context.Exception r.2
      (e.1.map EPJError.js, e.2)
  else (none, r.2)

/-- Decimal parsing as done by `new(big.Int).SetString(s, 10)`: an
optional sign followed by decimal digits. -/
def parse10 (s : GoStr) : Option Int :=
  let t := if s.startsWith "+" then s.drop 1 else s
  t.toInt?

/-- Strip one leading sign character. -/
def stripSign (l : List Char) : List Char :=
  match l with
  | '+' :: t => t
  | '-' :: t => t
  | t => t

/-- Split a character list at the first exponent marker. -/
def splitExp : List Char → List Char × Option (List Char)
  | [] => ([], none)
  | c :: t =>
    if c = 'e' ∨ c = 'E' then ([], some t)
    else
      let r := splitExp t
      (c :: r.1, r.2)

/-- A non-empty run of decimal digits. -/
def decDigits (l : List Char) : GoBool :=
  decide (l ≠ []) && l.all (fun c => c.isDigit)

/-- A decimal mantissa: digits with at most one point and at least one
digit overall. -/
def mantissaOk (l : List Char) : GoBool :=
  match l.span (fun c => c.isDigit) with
  | (ip, []) => decide (ip ≠ [])
  | (ip, '.' :: fp) => (decide (ip ≠ []) || decide (fp ≠ [])) && fp.all (fun c => c.isDigit)
  | _ => false

/-- Text accepted by `new(big.Float).SetString`, restricted to the decimal
forms (sign, mantissa, optional decimal exponent); hexadecimal and
infinity forms are omitted, no claim exercises them. -/
def validFloatLit (s : GoStr) : GoBool :=
  let body := stripSign s.data
  let r := splitExp body
  mantissaOk r.1 && (match r.2 with
    | none => true
    | some e => decDigits (stripSign e))

/-- The `big.Float` produced by parsing, abstracted to the accepted
literal text. -/
def parseBigFloat (s : GoStr) : Option GoStr :=
  if validFloatLit s then some s else none

/-- `Value.BigInt`: `nil` unless the value is a big-integer; otherwise the
result of base-10 parsing its string form (`nil` again if parsing fails). -/
def Value.BigInt (st : Engine) (v : JSVal) : Option Int :=
  if ! Value.IsBigInt v then none
  else parse10 (Value.String st v)

/-- `Value.BigFloat`: `nil` unless the value is a big-decimal or a
big-float; otherwise the result of parsing its string form (`nil` again if
parsing fails). -/
def Value.BigFloat (st : Engine) (v : JSVal) : Option GoStr :=
  if ! Value.IsBigDecimal v && ! Value.IsBigFloat v then none
  else parseBigFloat (Value.String st v)

/-- The finalizer-based variant's handle registry: tokens are addresses of
one-byte C allocations used purely as unique keys.  Modelled from the
spec, `malloc` hands out fresh addresses, drawn here from a counter. -/
structure FinStore where
  heapNext : Nat
  store : List (Nat × Function)

namespace Finalized

/-- `storeFuncPtr` of the finalizer variant: `nil` closures get the `nil`
token; otherwise a fresh one-byte allocation keys the closure in the map. -/
def storeFuncPtr (v : Option Function) (s : FinStore) : Option Nat × FinStore :=
  match v with
  | none => (none, s)
  | some f =>
    (some s.heapNext, { heapNext := s.heapNext + 1, store := (s.heapNext, f) :: s.store })

/-- `restoreFuncPtr` of the finalizer variant (`nil` token resolves to the
`nil` closure). -/
def restoreFuncPtr (ptr : Nat) (s : FinStore) : Option Function :=
  s.store.lookup ptr

/-- `freeFuncPtr` of the finalizer variant: delete the map entry and
release the one-byte allocation; a `nil` token is ignored.  It is invoked
at most once, from the finalizer of the exposing function Value. -/
def freeFuncPtr (ptr : Option Nat) (s : FinStore) : FinStore :=
  match ptr with
  | none => s
  | some p => { s with store := s.store.filter (fun kv => kv.1 != p) }

end Finalized

/-- The registry after `n` registrations of the entries `es 0 … es (n-1)`,
starting from the process-start registry. -/
def regSeq (es : Nat → funcEntry) : Nat → FuncStore
  | 0 => emptyStore
  | n + 1 => (storeFuncPtr (es n) (regSeq es n)).2

/-- The token issued by the `n`-th registration in that sequence. -/
def tokenAt (es : Nat → funcEntry) (n : Nat) : Int :=
  (storeFuncPtr (es n) (regSeq es n)).1

theorem wrap64_idem (x : Int) : wrap64 (wrap64 x) = wrap64 x := by
  unfold wrap64; omega

theorem wrap64_add_left (a b : Int) : wrap64 (wrap64 a + b) = wrap64 (a + b) := by
  unfold wrap64; omega

theorem wrap64_eq_self (x : Int) (h1 : -(2 ^ 63) ≤ x) (h2 : x < 2 ^ 63) : wrap64 x = x := by
  unfold wrap64; omega

theorem wrap32_eq_self (x : Int) (h1 : -(2 ^ 31) ≤ x) (h2 : x < 2 ^ 31) : wrap32 x = x := by
  unfold wrap32; omega

theorem isException_eq_false {w : JSVal} (h : w ≠ JSVal.exception) :
    Value.IsException w = false := by
  cases w <;> simp_all [Value.IsException]

theorem Value.Error_ne_none (st : Engine) (v : JSVal) :
    Value.Error st v ≠ none ↔ Value.IsError st v = true := by
  unfold Value.Error
  by_cases h : Value.IsError st v <;> simp [h]
  split <;> simp

/-- C1.  Counterexample to the claim as stated: evaluation of a script
that throws the non-Error value `42` fails (the returned Value is the
exception marker), yet `Context.EvalFile` returns a `nil` error, because
`Value.Error` yields `nil` for pending exceptions that are not Error-class
objects. -/
theorem eval_error_nil_on_nonerror_throw :
    (Context.EvalFile emptyStore initEngine (Outcome.throwV (JSVal.int 42))).1.2 = none
    ∧ Value.IsException
        (Context.EvalFile emptyStore initEngine (Outcome.throwV (JSVal.int 42))).1.1 = true := by
  constructor <;> rfl

/-- C1 (amended).  For every failing evaluation, `Context.EvalFile`
returns the exception-marked Value together with `Value.Error` of the
pending exception after it is consumed; that error is non-nil exactly when
the thrown value is an Error-class object (so `nil` for thrown
primitives). -/
theorem eval_failure_reports_pending_exception (s : FuncStore) (st : Engine) (v : JSVal) :
    Value.IsException (Context.EvalFile s st (Outcome.throwV v)).1.1 = true
    ∧ (Context.EvalFile s st (Outcome.throwV v)).1.2
        = Value.Error { st with pending := none } v
    ∧ ((Context.EvalFile s st (Outcome.throwV v)).1.2 ≠ none
        ↔ Value.IsError st v = true) :=
  ⟨rfl, rfl, Value.Error_ne_none { st with pending := none } v⟩

/-- C2.  A failing `Eval` always reads and clears the context's
pending-exception slot before returning, and a subsequent unrelated
(successfully completing) `Eval` on the same context returns a `nil`
error. -/
theorem eval_clears_pending_exception (s : FuncStore) (st : Engine) (o : Outcome) (w : JSVal)
    (hfail : Value.IsException (Context.EvalFile s st o).1.1 = true)
    (hw : w ≠ JSVal.exception) :
    (Context.EvalFile s st o).2.pending = none
    ∧ (Context.EvalFile s (Context.EvalFile s st o).2 (Outcome.ok w)).1.2 = none := by
  constructor
  · unfold Context.EvalFile at hfail ⊢
    by_cases h : Value.IsException (js_Eval s st o).1 = true
    · simp [h, Context.Exception, js_GetException]
    · simp [h] at hfail
  · unfold Context.EvalFile
    simp [js_Eval, isException_eq_false hw]

/-- C2 witness at a concrete failing evaluation. -/
theorem eval_clears_pending_exception_witness :
    (Context.EvalFile emptyStore initEngine (Outcome.throwV JSVal.null)).2.pending = none
    ∧ (Context.EvalFile emptyStore
        (Context.EvalFile emptyStore initEngine (Outcome.throwV JSVal.null)).2
        (Outcome.ok (JSVal.int 1))).1.2 = none :=
  eval_clears_pending_exception emptyStore initEngine (Outcome.throwV JSVal.null) (JSVal.int 1)
    (by decide) (by decide)

theorem goCString_message : goCString "message" = "message" := by decide

theorem goCString_stack : goCString "stack" = "stack" := by decide

/-- Shared helper: invoking the function value produced by
`Context.Function` runs the registered closure on exactly the caller's
`this` and argument list, and its result is the call result. -/
theorem callFunctionValue_exposed (c : Context) (s : FuncStore) (st stc : Engine)
    (fn : Function) (thisV : JSVal) (args : List JSVal) :
    callFunctionValue (Context.Function c s st fn).2.2 (Context.Function c s st fn).1
      thisV args stc = fn thisV args stc := by
  unfold Context.Function callFunctionValue invokeHostFunc proxy restoreFuncPtr storeFuncPtr
  simp [js_NewInt64, js_ToInt64, wrap64_idem, List.lookup]

/-- C3.  Callback argument fidelity: a script invocation of the function
value produced by `Context.Function` (also what `Value.SetFunction`
installs) runs the registered closure exactly once, on exactly the
caller's `this` and argument Values in order — the registry token the shim
prepends is stripped by the trampoline and never reaches the closure (the
closure sees the very same foreign values the script passed, hence every
type predicate and conversion agrees with the original arguments) — and
the closure's returned Value is the script-visible call result. -/
theorem function_callback_fidelity (c : Context) (s : FuncStore) (st stc : Engine)
    (fn : Function) (thisV : JSVal) (args : List JSVal) :
    callFunctionValue (Context.Function c s st fn).2.2 (Context.Function c s st fn).1
      thisV args stc = fn thisV args stc :=
  callFunctionValue_exposed c s st stc fn thisV args

/-- C4.  A closure that returns `ctx.ThrowError(err)` makes the enclosing
evaluation of a call to it fail: `Context.EvalFile` returns a non-nil
`Error` whose `Cause` is `"Error: "` followed by the thrown message (so it
matches the closure's message), together with the exception-marked
Value. -/
theorem callback_throw_propagates (c : Context) (s : FuncStore) (st st2 : Engine)
    (msg : GoStr) (thisV : JSVal) (hmsg : goCString msg = msg) (hne : msg ≠ "") :
    (Context.EvalFile
        (Context.Function c s st (fun _ _ stx => Context.ThrowError stx msg)).2.2 st2
        (Outcome.callHost
          (Context.Function c s st (fun _ _ stx => Context.ThrowError stx msg)).1
          thisV [])).1.2
      = some { Cause := "Error: " ++ msg, Stack := "" }
    ∧ Value.IsException
        (Context.EvalFile
          (Context.Function c s st (fun _ _ stx => Context.ThrowError stx msg)).2.2 st2
          (Outcome.callHost
            (Context.Function c s st (fun _ _ stx => Context.ThrowError stx msg)).1
            thisV [])).1.1
      = true := by
  have hcall := callFunctionValue_exposed c s st st2
    (fun _ _ stx => Context.ThrowError stx msg) thisV []
  simp only [Context.EvalFile, js_Eval]
  rw [hcall]
  simp +decide [Context.ThrowError, Context.Error, Context.Throw, js_Throw, js_NewError,
    Value.Set, js_SetPropertyStr, Context.String, js_NewString, Context.Exception,
    js_GetException, Value.Error, Value.IsError, Value.IsException, Value.IsUndefined,
    Value.String, js_ToCString, Value.Get, js_GetPropertyStr, List.lookup,
    goCString_message, goCString_stack, hmsg, hne]

/-- C4 witness: the repository's own test scenario, a closure throwing
`"expected error"` invoked with no arguments. -/
theorem callback_throw_propagates_witness :
    (Context.EvalFile
        (Context.Function ⟨none, none⟩ emptyStore initEngine
          (fun _ _ stx => Context.ThrowError stx "expected error")).2.2 initEngine
        (Outcome.callHost
          (Context.Function ⟨none, none⟩ emptyStore initEngine
            (fun _ _ stx => Context.ThrowError stx "expected error")).1
          JSVal.undefined [])).1.2
      = some { Cause := "Error: " ++ "expected error", Stack := "" }
    ∧ Value.IsException
        (Context.EvalFile
          (Context.Function ⟨none, none⟩ emptyStore initEngine
            (fun _ _ stx => Context.ThrowError stx "expected error")).2.2 initEngine
          (Outcome.callHost
            (Context.Function ⟨none, none⟩ emptyStore initEngine
              (fun _ _ stx => Context.ThrowError stx "expected error")).1
            JSVal.undefined [])).1.1
      = true :=
  callback_throw_propagates ⟨none, none⟩ emptyStore initEngine initEngine "expected error"
    JSVal.undefined (by decide) (by decide)

/-- C5.  Counterexample to the claim as stated: a queued job that raises
the non-Error value `7` makes `JS_ExecutePendingJob` report failure, but
`Runtime.ExecutePendingJob` returns a `nil` error — the very same result a
successfully executed job produces — because `ctx.Exception()` is `nil`
for a pending exception that is not an Error-class object.  The three
outcomes are therefore not all distinguished. -/
theorem executePendingJob_conflates_failure :
    (Runtime.ExecutePendingJob
        { initEngine with jobs := [JobSpec.raises (JSVal.int 7)] }).1 = none
    ∧ (Runtime.ExecutePendingJob { initEngine with jobs := [JobSpec.succeeds] }).1 = none := by
  constructor <;> rfl

/-- C5 (amended).  `Runtime.ExecutePendingJob` returns: the `io.EOF`
sentinel (distinct from success and from every constructed error) when no
job was pending; a `nil` error when a job executed successfully; and, when
the job raised, the error constructed from the captured pending exception —
which is non-nil, and distinct from both other outcomes, whenever the
raised value is an Error-class object (a raised non-Error value yields a
`nil` error, conflating this case with success). -/
theorem executePendingJob_outcomes (st : Engine) (v : JSVal) (rest : List JobSpec) :
    (st.jobs = [] → (Runtime.ExecutePendingJob st).1 = some EPJError.eof)
    ∧ (st.jobs = JobSpec.succeeds :: rest → (Runtime.ExecutePendingJob st).1 = none)
    ∧ (st.jobs = JobSpec.raises v :: rest →
        (Runtime.ExecutePendingJob st).1
          = (Value.Error { st with jobs := rest, pending := none } v).map EPJError.js
        ∧ (Value.IsError st v = true →
            (Runtime.ExecutePendingJob st).1 ≠ none
            ∧ (Runtime.ExecutePendingJob st).1 ≠ some EPJError.eof)) := by
  refine ⟨fun h => ?_, fun h => ?_, fun h => ?_⟩
  · unfold Runtime.ExecutePendingJob js_ExecutePendingJob
    rw [h]
    rfl
  · unfold Runtime.ExecutePendingJob js_ExecutePendingJob
    rw [h]
    rfl
  · have h1 : (Runtime.ExecutePendingJob st).1
        = (Value.Error { st with jobs := rest, pending := none } v).map EPJError.js := by
      unfold Runtime.ExecutePendingJob js_ExecutePendingJob
      rw [h]
      rfl
    refine ⟨h1, fun hv => ?_⟩
    have h2 : Value.Error { st with jobs := rest, pending := none } v ≠ none :=
      (Value.Error_ne_none _ v).mpr hv
    rcases ho : Value.Error { st with jobs := rest, pending := none } v with _ | e
    · exact absurd ho h2
    · rw [h1, ho]
      exact ⟨by simp, by simp⟩

/-- C5 witness: a job raising an Error object with message `"boom"`
produces the constructed non-nil error. -/
theorem executePendingJob_outcomes_witness :
    (Runtime.ExecutePendingJob
        { pending := none,
          heap := [(0, { isError := false, props := [] }),
                   (1, { isError := true, props := [("message", JSVal.str "boom")] })],
          nextObj := 2,
          jobs := [JobSpec.raises (JSVal.obj 1)] }).1
      = some (EPJError.js { Cause := "Error: boom", Stack := "" }) := by
  have h := (executePendingJob_outcomes
      { pending := none,
        heap := [(0, { isError := false, props := [] }),
                 (1, { isError := true, props := [("message", JSVal.str "boom")] })],
        nextObj := 2,
        jobs := [JobSpec.raises (JSVal.obj 1)] } (JSVal.obj 1) []).2.2 rfl
  rw [h.1]
  rfl

/-- C6.  Counterexample to the claim as stated: the string constructor /
conversion round-trip is not byte-for-byte for every Go string — the value
crosses the engine ABI as a NUL-terminated C string, so `"a\x00b"` comes
back as `"a"`. -/
theorem string_roundtrip_truncates_at_nul :
    Value.String initEngine (Context.String "a\x00b") = "a"
    ∧ ("a\x00b" : GoStr) ≠ "a" := by
  constructor
  · decide
  · decide

/-- C6 (amended).  Construct-then-convert is the identity for every
primitive constructor: `bool`, in-range `int32`, `int64`, `uint32`, any
64-bit double pattern (bit-for-bit), and every UTF-8 string that contains
no NUL character (byte-for-byte; a NUL truncates, as the counterexample
shows). -/
theorem primitive_roundtrip (st : Engine) (b : Bool) (i32 i64 : Int) (u32 bits : Nat)
    (s : GoStr)
    (h32l : -(2 ^ 31) ≤ i32) (h32u : i32 < 2 ^ 31)
    (h64l : -(2 ^ 63) ≤ i64) (h64u : i64 < 2 ^ 63)
    (hu : u32 < 2 ^ 32) (hbits : bits < 2 ^ 64)
    (hs : goCString s = s) :
    Value.Bool st (Context.Bool b) = b
    ∧ Value.Int32 st (Context.Int32 i32) = i32
    ∧ Value.Int64 st (Context.Int64 i64) = i64
    ∧ Value.Uint32 st (Context.Uint32 u32) = u32
    ∧ Value.Float64 st (Context.Float64 bits) = bits
    ∧ Value.String st (Context.String s) = s := by
  refine ⟨?_, ?_, ?_, ?_, ?_, ?_⟩
  · cases b <;> rfl
  · show wrap32 (wrap32 i32) = i32
    unfold wrap32
    omega
  · show wrap64 (wrap64 i64) = i64
    unfold wrap64
    omega
  · show (((u32 : Int) % 2 ^ 32) % 2 ^ 32).toNat = u32
    omega
  · show bits % 2 ^ 64 = bits
    omega
  · show goCString s = s
    exact hs

/-- C6 witness at concrete inputs of each primitive kind. -/
theorem primitive_roundtrip_witness :
    Value.Bool initEngine (Context.Bool true) = true
    ∧ Value.Int32 initEngine (Context.Int32 (-(2 ^ 31))) = -(2 ^ 31)
    ∧ Value.Int64 initEngine (Context.Int64 (2 ^ 62 + 3)) = 2 ^ 62 + 3
    ∧ Value.Uint32 initEngine (Context.Uint32 4294967295) = 4294967295
    ∧ Value.Float64 initEngine (Context.Float64 (2 ^ 63 + 1)) = 2 ^ 63 + 1
    ∧ Value.String initEngine (Context.String "hello") = "hello" :=
  primitive_roundtrip initEngine true (-(2 ^ 31)) (2 ^ 62 + 3) 4294967295 (2 ^ 63 + 1) "hello"
    (by decide) (by decide) (by decide) (by decide) (by decide) (by decide) (by decide)

/-- Shared helper: a property set on an existing heap object is read back
through any handle to the same object id. -/
theorem set_get_roundtrip (st : Engine) (id : Nat) (o : JSObject) (name : String) (v : JSVal)
    (ho : st.heap.lookup id = some o) :
    js_GetPropertyStr (js_SetPropertyStr st (JSVal.obj id) name v) (JSVal.obj id) name = v := by
  simp [js_SetPropertyStr, js_GetPropertyStr, ho, List.lookup]

/-- C7.  `Context.Globals` caches the global-object handle on first use
and initializes it at most once: a second call returns the same handle and
leaves the context unchanged, and a property set through the first call's
Value is read back through the second call's Value. -/
theorem globals_cached_and_consistent (c : Context) (st : Engine) (o : JSObject)
    (hc : c.globals = none) (ho : st.heap.lookup 0 = some o) (name : GoStr) (v : JSVal) :
    (Context.Globals c st).1 = (Context.Globals (Context.Globals c st).2 st).1
    ∧ (Context.Globals (Context.Globals c st).2 st).2 = (Context.Globals c st).2
    ∧ Value.Get (Value.Set st (Context.Globals c st).1 name v)
        (Context.Globals (Context.Globals c st).2 st).1 name = v := by
  unfold Context.Globals
  rw [hc]
  refine ⟨rfl, rfl, ?_⟩
  show js_GetPropertyStr (js_SetPropertyStr st (JSVal.obj 0) (goCString name) v)
      (JSVal.obj 0) (goCString name) = v
  exact set_get_roundtrip st 0 o (goCString name) v ho

/-- C7 witness on a fresh context and the initial engine state. -/
theorem globals_cached_and_consistent_witness :
    (Context.Globals ⟨none, none⟩ initEngine).1
      = (Context.Globals (Context.Globals ⟨none, none⟩ initEngine).2 initEngine).1
    ∧ (Context.Globals (Context.Globals ⟨none, none⟩ initEngine).2 initEngine).2
      = (Context.Globals ⟨none, none⟩ initEngine).2
    ∧ Value.Get (Value.Set initEngine (Context.Globals ⟨none, none⟩ initEngine).1 "x"
          (JSVal.int 5))
        (Context.Globals (Context.Globals ⟨none, none⟩ initEngine).2 initEngine).1 "x"
      = JSVal.int 5 :=
  globals_cached_and_consistent ⟨none, none⟩ initEngine { isError := false, props := [] }
    rfl rfl "x" (JSVal.int 5)

theorem storeFuncPtr_fst (v : funcEntry) (s : FuncStore) :
    (storeFuncPtr v s).1 = wrap64 (wrap64 (s.funcPtrLen + 1) - 1) := rfl

theorem storeFuncPtr_len (v : funcEntry) (s : FuncStore) :
    (storeFuncPtr v s).2.funcPtrLen = wrap64 (s.funcPtrLen + 1) := rfl

theorem storeFuncPtr_store (v : funcEntry) (s : FuncStore) :
    (storeFuncPtr v s).2.funcPtrStore = ((storeFuncPtr v s).1, v) :: s.funcPtrStore := rfl

theorem regSeq_len (es : Nat → funcEntry) (n : Nat) :
    (regSeq es n).funcPtrLen = wrap64 n := by
  induction n with
  | zero =>
    show (0 : Int) = wrap64 0
    unfold wrap64
    decide
  | succ n ih =>
    show (storeFuncPtr (es n) (regSeq es n)).2.funcPtrLen = wrap64 (n + 1 : Nat)
    rw [storeFuncPtr_len, ih]
    unfold wrap64
    push_cast
    omega

theorem tokenAt_eq (es : Nat → funcEntry) (n : Nat) : tokenAt es n = wrap64 n := by
  unfold tokenAt
  rw [storeFuncPtr_fst, regSeq_len]
  unfold wrap64
  omega

theorem regSeq_store (es : Nat → funcEntry) (n : Nat) :
    (regSeq es (n + 1)).funcPtrStore = (wrap64 n, es n) :: (regSeq es n).funcPtrStore := by
  have h : (regSeq es (n + 1)).funcPtrStore
      = ((storeFuncPtr (es n) (regSeq es n)).1, es n) :: (regSeq es n).funcPtrStore :=
    storeFuncPtr_store (es n) (regSeq es n)
  rw [h]
  have h2 : (storeFuncPtr (es n) (regSeq es n)).1 = wrap64 n := tokenAt_eq es n
  rw [h2]

theorem wrap64_nat_inj (j k : Nat) (hj : j < 2 ^ 64) (hk : k < 2 ^ 64)
    (h : wrap64 j = wrap64 k) : j = k := by
  unfold wrap64 at h
  omega

theorem regSeq_lookup (es : Nat → funcEntry) (j : Nat) : ∀ n, j < n → n ≤ 2 ^ 64 →
    List.lookup (wrap64 j) (regSeq es n).funcPtrStore = some (es j) := by
  intro n
  induction n with
  | zero =>
    intro hj _
    exact absurd hj (by omega)
  | succ n ih =>
    intro hj hn
    rw [regSeq_store, List.lookup_cons]
    by_cases h : j = n
    · subst h
      rw [beq_self_eq_true]
    · have hne : (wrap64 (j : Nat) == wrap64 (n : Nat)) = false := by
        rw [beq_eq_false_iff_ne]
        intro he
        exact h (wrap64_nat_inj j n (by omega) (by omega) he)
      rw [hne]
      exact ih (by omega) (by omega)

/-- C8.  Counterexample to the claim as stated: the token counter is a
wrapping `int64`, so after 2^64 registrations the issued token repeats —
registration number 2^64 returns the same token registration number 0
already received. -/
theorem token_reuse_after_wraparound :
    tokenAt (fun _ => { fn := fun _ _ st => (JSVal.undefined, st) }) 0
      = tokenAt (fun _ => { fn := fun _ _ st => (JSVal.undefined, st) }) (2 ^ 64)
    ∧ (0 : Nat) < 2 ^ 64 := by
  constructor
  · rw [tokenAt_eq, tokenAt_eq]
    unfold wrap64
    decide
  · decide

/-- C8 (amended).  As long as fewer than 2^64 registrations have occurred
(the `int64` counter has not wrapped), every registration returns a token
distinct from every previously issued one, and resolving an issued token
returns exactly the closure entry stored under it.  Concurrent
registrations are serialised by the atomic counter increment and the
registry mutex; the sequence model is their linearisation. -/
theorem registry_fresh_tokens (es : Nat → funcEntry) (j k n : Nat)
    (hjk : j < k) (hk : k < 2 ^ 64) (hjn : j < n) (hn : n ≤ 2 ^ 64) :
    tokenAt es j ≠ tokenAt es k
    ∧ restoreFuncPtr (tokenAt es j) (regSeq es n) = some (es j) := by
  constructor
  · rw [tokenAt_eq, tokenAt_eq]
    intro h
    have := wrap64_nat_inj j k (by omega) hk h
    omega
  · rw [tokenAt_eq]
    exact regSeq_lookup es j n hjn hn

/-- C8 witness: two registrations issue distinct tokens and both resolve
to their entries. -/
theorem registry_fresh_tokens_witness :
    tokenAt (fun _ => { fn := fun _ _ st => (JSVal.null, st) }) 0
      ≠ tokenAt (fun _ => { fn := fun _ _ st => (JSVal.null, st) }) 1
    ∧ restoreFuncPtr (tokenAt (fun _ => { fn := fun _ _ st => (JSVal.null, st) }) 0)
        (regSeq (fun _ => { fn := fun _ _ st => (JSVal.null, st) }) 2)
      = some { fn := fun _ _ st => (JSVal.null, st) } :=
  registry_fresh_tokens (fun _ => { fn := fun _ _ st => (JSVal.null, st) }) 0 1 2
    (by decide) (by decide) (by decide) (by decide)

theorem lookup_filter_ne (p : Nat) (l : List (Nat × Function)) :
    List.lookup p (l.filter (fun kv => kv.1 != p)) = none := by
  induction l with
  | nil => rfl
  | cons kv t ih =>
    by_cases h : kv.1 = p
    · simp only [List.filter_cons]
      rw [if_neg (by simp [h])]
      exact ih
    · simp only [List.filter_cons]
      rw [if_pos (by simp [h]), List.lookup_cons]
      have : (p == kv.1) = false := by
        rw [beq_eq_false_iff_ne]
        exact fun he => h he.symm
      rw [this]
      exact ih

/-- C9.  Counterexample to the claim as stated: in the primary variant,
exposing a closure stores it under token 0, and destroying the exposing
function Value (`Value.Free` — the only destruction path; the removal
helper is commented out) leaves the registry entry in place, so the
registry retains the entry for the life of the process. -/
theorem registry_retains_after_value_free :
    (Context.Function ⟨none, none⟩ emptyStore initEngine
        (fun _ _ st => (JSVal.undefined, st))).1 = JSVal.hostfunc (JSVal.int 0)
    ∧ restoreFuncPtr 0
        (Value.Free (Context.Function ⟨none, none⟩ emptyStore initEngine
          (fun _ _ st => (JSVal.undefined, st))).2.2)
      = some { fn := fun _ _ st => (JSVal.undefined, st) } := by
  constructor
  · rfl
  · rfl

/-- C9 (amended).  Registry entries are removable in principle, but the
primary variant never removes them: destroying the exposing Value leaves
the registry unchanged and the token still resolves, so entries persist
for the life of the process.  In the finalizer-based variant, the
finalizer tied to the exposing function Value calls `freeFuncPtr` (at most
once, by the finalizer contract), which removes the entry and releases the
token's one-byte native allocation: afterwards the token no longer
resolves. -/
theorem registry_removal_variants (s : FuncStore) (fs : FinStore) (fn : Function) :
    Value.Free (storeFuncPtr { fn := fn } s).2 = (storeFuncPtr { fn := fn } s).2
    ∧ restoreFuncPtr (storeFuncPtr { fn := fn } s).1
        (Value.Free (storeFuncPtr { fn := fn } s).2) = some { fn := fn }
    ∧ Finalized.restoreFuncPtr fs.heapNext
        (Finalized.freeFuncPtr (Finalized.storeFuncPtr (some fn) fs).1
          (Finalized.storeFuncPtr (some fn) fs).2) = none := by
  refine ⟨rfl, ?_, ?_⟩
  · show List.lookup (storeFuncPtr { fn := fn } s).1
        (((storeFuncPtr { fn := fn } s).1, ({ fn := fn } : funcEntry)) :: s.funcPtrStore)
      = some { fn := fn }
    rw [List.lookup_cons, beq_self_eq_true]
  · show List.lookup fs.heapNext
        (((fs.heapNext, fn) :: fs.store).filter (fun kv => kv.1 != fs.heapNext)) = none
    exact lookup_filter_ne fs.heapNext ((fs.heapNext, fn) :: fs.store)

/-- C10.  `Value.BigInt` returns `nil` (it is a total function of the
value, never a panic) whenever the value is not a big-integer, and a
non-nil result only for big-integers; `Value.BigFloat` returns `nil`
whenever the value is neither a big-float nor a big-decimal, and a non-nil
result only for those two kinds. -/
theorem bignum_conversion_guards (st : Engine) (v : JSVal) (z : Int) (bf : GoStr) :
    (Value.IsBigInt v = false → Value.BigInt st v = none)
    ∧ (Value.BigInt st v = some z → Value.IsBigInt v = true)
    ∧ ((Value.IsBigFloat v = false ∧ Value.IsBigDecimal v = false) →
        Value.BigFloat st v = none)
    ∧ (Value.BigFloat st v = some bf →
        Value.IsBigFloat v = true ∨ Value.IsBigDecimal v = true) := by
  refine ⟨fun h => ?_, fun h => ?_, fun h => ?_, fun h => ?_⟩
  · unfold Value.BigInt
    rw [h]
    rfl
  · cases hb : Value.IsBigInt v with
    | false =>
      unfold Value.BigInt at h
      rw [hb] at h
      exact absurd h (by simp)
    | true => rfl
  · unfold Value.BigFloat
    rw [h.1, h.2]
    rfl
  · cases hf : Value.IsBigFloat v with
    | true => exact Or.inl rfl
    | false =>
      cases hd : Value.IsBigDecimal v with
      | true => exact Or.inr rfl
      | false =>
        unfold Value.BigFloat at h
        rw [hf, hd] at h
        exact absurd h (by simp)

/-- C10 witness at a non-bignum value. -/
theorem bignum_conversion_guards_witness :
    (Value.IsBigInt (JSVal.int 3) = false → Value.BigInt initEngine (JSVal.int 3) = none)
    ∧ (Value.BigInt initEngine (JSVal.int 3) = some 0 →
        Value.IsBigInt (JSVal.int 3) = true)
    ∧ ((Value.IsBigFloat (JSVal.int 3) = false ∧ Value.IsBigDecimal (JSVal.int 3) = false) →
        Value.BigFloat initEngine (JSVal.int 3) = none)
    ∧ (Value.BigFloat initEngine (JSVal.int 3) = some "" →
        Value.IsBigFloat (JSVal.int 3) = true ∨ Value.IsBigDecimal (JSVal.int 3) = true) :=
  bignum_conversion_guards initEngine (JSVal.int 3) 0 ""
